import Mathlib

/-!
Verification of the HLS download / conversion server (src/server.js).

Strings from the JavaScript source are modelled as lists of characters
(List Char); byte streams are modelled as lists of naturals (List Nat).
Network and filesystem effects are modelled as explicit oracle functions
passed to the embedded operations.
-/

set_option autoImplicit false

/-- Decidable equality for Except results, used to evaluate the embedded
operations on concrete inputs. -/
instance exceptDecEq {ε α : Type} [DecidableEq ε] [DecidableEq α] :
    DecidableEq (Except ε α)
  | Except.error a, Except.error b =>
    if h : a = b then isTrue (by rw [h])
    else isFalse (fun hc => h ((Except.error.injEq a b).mp hc))
  | Except.error a, Except.ok b => isFalse (fun hc => Except.noConfusion hc)
  | Except.ok a, Except.error b => isFalse (fun hc => Except.noConfusion hc)
  | Except.ok a, Except.ok b =>
    if h : a = b then isTrue (by rw [h])
    else isFalse (fun hc => h ((Except.ok.injEq a b).mp hc))

namespace HLS

/-! ### Character-list utilities mirroring the JavaScript string operations -/

/-- Model of JavaScript String.prototype.includes: the pattern occurs as a
contiguous subsequence of the string. -/
def containsSeq (pat : List Char) : List Char → Bool
  | [] => pat.isEmpty
  | c :: rest => pat.isPrefixOf (c :: rest) || containsSeq pat rest

/-- Model of JavaScript String.prototype.startsWith. -/
def startsWithSeq (pat l : List Char) : Bool := pat.isPrefixOf l

/-- Model of JavaScript String.prototype.split(sep) for a single-character
separator. -/
def splitOnChar (sep : Char) : List Char → List (List Char)
  | [] => [[]]
  | c :: rest =>
    if c = sep then [] :: splitOnChar sep rest
    else
      match splitOnChar sep rest with
      | [] => [[c]]
      | h :: t => (c :: h) :: t

/-- Whitespace recognised by the model of String.prototype.trim. -/
def isJsWhitespace (c : Char) : Bool :=
  c = ' ' || c = '\t' || c = '\n' || c = '\r' || c = '\x0b' || c = '\x0c'

/-- Model of JavaScript String.prototype.trim. -/
def trimChars (l : List Char) : List Char :=
  ((l.dropWhile isJsWhitespace).reverse.dropWhile isJsWhitespace).reverse

/-- Character test used when locating the last slash of a URL. -/
def notSlash (c : Char) : Bool := c != '/'

/-- src/server.js:404 - baseUrl is the playlist URL truncated just after its
last slash: m3u8Url.substring(0, m3u8Url.lastIndexOf(\x27/\x27) + 1). -/
def baseUrlOf (url : List Char) : List Char :=
  (url.reverse.dropWhile notSlash).reverse

/-- The part of the URL after its last slash (empty-slash complement of
baseUrlOf, used to state what truncation means). -/
def afterLastSlash (url : List Char) : List Char :=
  (url.reverse.takeWhile notSlash).reverse

/-! ### Playlist parsing (src/server.js, downloadHLS, lines 402-436) -/

/-- The master-playlist marker tag searched for on every line
(src/server.js:407). -/
def streamInfMarker : List Char := "#EXT-X-STREAM-INF".data

/-- A single hash character, the comment/tag prefix. -/
def hashMarker : List Char := "#".data

/-- Prefix marking an already-absolute URL (src/server.js:416,427). -/
def httpMarker : List Char := "http".data

/-- src/server.js:407 - a playlist is a master playlist when some line
contains the stream-info marker. -/
def isMasterPlaylist (lines : List (List Char)) : Bool :=
  lines.any (fun l => containsSeq streamInfMarker l)

/-- src/server.js:412-421 - scan for the first line containing the
stream-info marker that is followed by a usable (present, non-empty, not
hash-prefixed) line; return that following line. The scan continues past
markers whose following line is unusable, exactly as the JavaScript loop
does. -/
def findVariant : List (List Char) → Option (List Char)
  | [] => none
  | [_] => none
  | l1 :: l2 :: rest =>
    if containsSeq streamInfMarker l1 && (decide (l2 ≠ [])) && !(startsWithSeq hashMarker l2) then
      some l2
    else
      findVariant (l2 :: rest)

/-- src/server.js:426 - the line filter of the media branch:
line && !line.startsWith(\x27#\x27) && line.trim().length > 0. -/
def isSegmentLine (l : List Char) : Bool :=
  (decide (l ≠ [])) && !(startsWithSeq hashMarker l) && (decide (trimChars l ≠ []))

/-- src/server.js:416,427 - resolve a playlist line against the base URL:
absolute lines (starting with http) are kept, others are prefixed. -/
def resolveUrl (baseUrl line : List Char) : List Char :=
  if startsWithSeq httpMarker line then line else baseUrl ++ line

/-- src/server.js:425-430 - the media-branch loop pushing one resolved
segment URL per passing line, in order. -/
def extractSegments (baseUrl : List Char) (lines : List (List Char)) : List (List Char) :=
  lines.foldl
    (fun segs line => if isSegmentLine line then segs ++ [resolveUrl baseUrl line] else segs)
    []

/-- Outcome of one parsing pass over fetched playlist text: either recurse
into a chosen variant playlist, or proceed with the extracted media
segment list. -/
inductive ParseOutcome where
  | variant (url : List Char)
  | media (segs : List (List Char))
deriving DecidableEq

/-- src/server.js:402-430 - split the text into lines, choose the variant
branch when the playlist is a master playlist with a usable variant line,
and otherwise fall through to media segment extraction (the JavaScript
for-loop returns early only when a usable variant is found; when none is
found control reaches the media extraction loop). -/
def parsePlaylistStep (m3u8Url text : List Char) : ParseOutcome :=
  let lines := splitOnChar '\n' text
  let baseUrl := baseUrlOf m3u8Url
  match (if isMasterPlaylist lines then findVariant lines else none) with
  | some v => ParseOutcome.variant (resolveUrl baseUrl v)
  | none => ParseOutcome.media (extractSegments baseUrl lines)

/-! ### Segment downloading (src/server.js:438-482) -/

/-- What one segment fetch delivers into the output sink
(src/server.js:446-459). The response body is piped chunk by chunk with
end kept open, so bytes reach the file as they arrive: when the stream
ends, the full body has been written and the segment counts as
downloaded; when the request or the stream errors, the chunks already
piped before the error event stay in the file (empty when the request
itself rejected before any body data) and the segment does not count. -/
inductive FetchOutcome where
  | completed (bytes : List Nat)
  | failed (delivered : List Nat)
deriving DecidableEq

/-- The bytes a fetch outcome wrote into the sink: the full body of a
completed stream, or the prefix piped before a failure. -/
def deliveredBytes : FetchOutcome → List Nat
  | FetchOutcome.completed b => b
  | FetchOutcome.failed d => d

/-- Whether the stream reached its end event, which is what increments the
success counter (src/server.js:457-461). -/
def isCompleted : FetchOutcome → Bool
  | FetchOutcome.completed _ => true
  | FetchOutcome.failed _ => false

/-- The full body of a completed fetch, and nothing for a failed one. -/
def completedBody : FetchOutcome → Option (List Nat)
  | FetchOutcome.completed b => some b
  | FetchOutcome.failed _ => none

/-- src/server.js:442-467 - the sequential segment loop: each segment URL
is fetched and its body piped into the single output sink; the delivered
bytes (full body, or the partial prefix piped before a stream error) are
appended either way, the counter increments only when the stream ends,
and a failed segment is then skipped. The state is (downloadedSegments,
bytes written so far). -/
def downloadSegments (fetchSegment : List Char → FetchOutcome)
    (segs : List (List Char)) : Nat × List Nat :=
  segs.foldl
    (fun acc u =>
      match fetchSegment u with
      | FetchOutcome.completed bytes => (acc.1 + 1, acc.2 ++ bytes)
      | FetchOutcome.failed delivered => (acc.1, acc.2 ++ delivered))
    (0, [])

/-- src/server.js:434-435 - thrown when the media playlist yields no
segments. -/
def errNoSegmentsFound : String := "No segments found in playlist"

/-- src/server.js:478-479 - thrown when every segment fetch failed. -/
def errNoSegmentsDownloaded : String := "No segments were downloaded successfully"

/-- Modelling artifact: the JavaScript recursion on master playlists has no
depth bound, so the embedding carries explicit fuel; this message is
returned only when the fuel runs out. -/
def errFuelExhausted : String := "recursion limit reached"

/-- src/server.js:485 - every error escaping downloadHLS is rewrapped as
HLS download failed: message. -/
def wrapHLSError (e : String) : String := "HLS download failed: " ++ e

/-- src/server.js:476-482 - after the loop, fail when zero segments
succeeded, otherwise report the success count (the file holds the
accumulated bytes, kept here as the second component). -/
def downloadSegmentsChecked (fetchSegment : List Char → FetchOutcome)
    (segs : List (List Char)) : Except String (Nat × List Nat) :=
  let r := downloadSegments fetchSegment segs
  if r.1 = 0 then Except.error errNoSegmentsDownloaded else Except.ok r

/-- src/server.js:387-487 - downloadHLS: fetch the playlist text, parse it,
recurse on a chosen variant, or run the segment loop; every error is
wrapped with the HLS-download-failed prefix on the way out. fetchPlaylist
models the playlist GET (its error string is the network error message);
fetchSegment models the per-segment streaming GET. -/
def downloadHLS (fetchPlaylist : List Char → Except String (List Char))
    (fetchSegment : List Char → FetchOutcome) :
    Nat → List Char → Except String (Nat × List Nat)
  | 0, _ => Except.error (wrapHLSError errFuelExhausted)
  | Nat.succ fuel, url =>
    let body : Except String (Nat × List Nat) :=
      match fetchPlaylist url with
      | Except.error e => Except.error e
      | Except.ok text =>
        match parsePlaylistStep url text with
        | ParseOutcome.variant v => downloadHLS fetchPlaylist fetchSegment fuel v
        | ParseOutcome.media segs =>
          if segs.length = 0 then Except.error errNoSegmentsFound
          else downloadSegmentsChecked fetchSegment segs
    match body with
    | Except.error e => Except.error (wrapHLSError e)
    | Except.ok v => Except.ok v

/-! ### Container conversion (src/server.js:18-170, convertTsToMp4 / runFFmpeg) -/

/-- The three conversion strategies, in the order convertTsToMp4 tries
them (src/server.js:20-65). -/
inductive Strategy where
  | copy
  | reencode
  | basic
deriving DecidableEq

/-- What became of one spawned conversion process: the spawn itself failed
(the on-error handler, src/server.js:153-156), the five-minute timeout
fired (src/server.js:158-163), or the process exited with a code, its
captured standard-error text, and the state of the output file on disk
(src/server.js:114-151). -/
inductive SpawnOutcome where
  | startFailure (msg : String)
  | timedOut
  | exited (code : Int) (stderrText : String) (outputExists : Bool) (outputSize : Nat)
deriving DecidableEq

/-- Environment of one runFFmpeg invocation: the pre-spawn filesystem
checks (src/server.js:78-90) plus the process outcome. -/
structure FFmpegRun where
  inputExists : Bool
  ffmpegAvailable : Bool
  outcome : SpawnOutcome
deriving DecidableEq

/-- src/server.js:79 - rejection when the input file is missing. -/
def msgInputMissing : String := "Input file does not exist"

/-- src/server.js:88 - rejection when the ffmpeg binary is missing. -/
def msgFfmpegMissing : String := "FFmpeg binary not found"

/-- src/server.js:155 - prefix of the spawn-error rejection message. -/
def msgSpawnPre : String := "Failed to start FFmpeg process: "

/-- src/server.js:162 - the timeout rejection message. -/
def msgTimeout : String := "FFmpeg conversion timeout (5 minutes)"

/-- src/server.js:124 - rejection for a zero-byte output file. -/
def msgEmptyOutput : String := "Output file was created but is empty (0 bytes)"

/-- src/server.js:130 - rejection when the output file was never created. -/
def msgNoOutput : String := "FFmpeg reported success but output file was not created"

/-- src/server.js:138-147 - strings of the stderr pattern analysis. -/
def msgUnknownFFmpeg : String := "Unknown FFmpeg error"

/-- Likely-cause string for corrupt input (src/server.js:140). -/
def msgCorruptInput : String := "Input TS file appears to be corrupted or invalid"

/-- Likely-cause string for a full disk (src/server.js:142). -/
def msgDiskFull : String := "Insufficient disk space for conversion"

/-- Likely-cause string for a permission failure (src/server.js:144). -/
def msgPermission : String := "Permission denied writing output file"

/-- Likely-cause string for truncated input (src/server.js:146). -/
def msgTruncated : String := "Input file is incomplete or corrupted"

/-- Stderr pattern for corrupt input (src/server.js:139). -/
def patInvalidData : List Char := "Invalid data found when processing input".data

/-- Stderr pattern for a full disk (src/server.js:141). -/
def patNoSpace : List Char := "No space left on device".data

/-- Stderr pattern for a permission failure (src/server.js:143). -/
def patPermission : List Char := "Permission denied".data

/-- Stderr pattern for truncated input (src/server.js:145). -/
def patMoovAtom : List Char := "moov atom not found".data

/-- src/server.js:137-147 - classify the captured stderr text into a
likely-cause string; the first matching pattern wins. -/
def analyzeStderr (stderrText : String) : String :=
  if containsSeq patInvalidData stderrText.data then msgCorruptInput
  else if containsSeq patNoSpace stderrText.data then msgDiskFull
  else if containsSeq patPermission stderrText.data then msgPermission
  else if containsSeq patMoovAtom stderrText.data then msgTruncated
  else msgUnknownFFmpeg

/-- Pieces of the non-zero-exit rejection message of src/server.js:149. -/
def msgFailPre : String := "FFmpeg conversion failed ("

/-- Middle piece of the src/server.js:149 message, before the exit code. -/
def msgFailMid : String := "): Exit code "

/-- Final piece of the src/server.js:149 message, before the stderr text. -/
def msgFailErr : String := ". Error: "

/-- src/server.js:73-170 - runFFmpeg as a function of its environment:
pre-spawn checks reject first; a spawn error, the timeout, a non-zero
exit, a missing output file and an empty output file each reject with the
source's message; a zero exit with a non-empty output file resolves. -/
def runFFmpeg (r : FFmpegRun) : Except String Unit :=
  if r.inputExists = false then Except.error msgInputMissing
  else if r.ffmpegAvailable = false then Except.error msgFfmpegMissing
  else
    match r.outcome with
    | SpawnOutcome.startFailure m => Except.error (msgSpawnPre ++ m)
    | SpawnOutcome.timedOut => Except.error msgTimeout
    | SpawnOutcome.exited code st outEx outSz =>
      if code = 0 then
        if outEx then
          if outSz = 0 then Except.error msgEmptyOutput else Except.ok ()
        else Except.error msgNoOutput
      else
        Except.error
          (msgFailPre ++ analyzeStderr st ++ msgFailMid ++ toString code ++ msgFailErr ++ st)

/-- src/server.js:68 - prefix of the final error after all three
strategies failed. -/
def msgAllFailedPre : String := "All FFmpeg conversion strategies failed. Last error: "

/-- src/server.js:19-70 - convertTsToMp4: try the copy, re-encode and
basic strategies in that order, stopping at the first resolving run (the
returned Strategy is the observable success report of lines 30, 49, 64);
when all three reject, fail with the message of line 68, which embeds the
last (basic) strategy's rejection message. runs gives the environment of
each strategy's runFFmpeg invocation. -/
def convertTsToMp4 (runs : Strategy → FFmpegRun) : Except String Strategy :=
  match runFFmpeg (runs Strategy.copy) with
  | Except.ok _ => Except.ok Strategy.copy
  | Except.error _ =>
    match runFFmpeg (runs Strategy.reencode) with
    | Except.ok _ => Except.ok Strategy.reencode
    | Except.error _ =>
      match runFFmpeg (runs Strategy.basic) with
      | Except.ok _ => Except.ok Strategy.basic
      | Except.error e => Except.error (msgAllFailedPre ++ e)

/-- An FFmpegRun whose process started and exited: both pre-spawn checks
pass and the outcome is an exit. -/
def normalRun (code : Int) (st : String) (outEx : Bool) (outSz : Nat) : FFmpegRun :=
  ⟨true, true, SpawnOutcome.exited code st outEx outSz⟩

/-- An FFmpegRun whose process failed to start (the spawn-error path of
src/server.js:153-156). -/
def spawnFailRun (m : String) : FFmpegRun :=
  ⟨true, true, SpawnOutcome.startFailure m⟩

/-! ### Timeout inventory (one descriptor per outbound call site) -/

/-- Options of one axios request as written at a call site: the timeout
field (none when the call site passes no timeout) and whether a
browser-like User-Agent header is set. -/
structure HttpRequest where
  timeoutMs : Option Nat
  hasUserAgent : Bool
deriving DecidableEq

/-- src/server.js:392-396 - the GET of the playlist text inside
downloadHLS: only headers are passed, no timeout field. -/
def playlistGetRequest : HttpRequest := ⟨none, true⟩

/-- src/server.js:446-452 - the streaming GET of one segment: timeout
30000 ms. -/
def segmentGetRequest : HttpRequest := ⟨some 30000, true⟩

/-- src/server.js:319-325 - the HEAD probe of a candidate usher URL inside
extractTwitchM3U8: timeout 10000 ms. -/
def usherHeadRequest : HttpRequest := ⟨some 10000, true⟩

/-- src/server.js:341-346 - the full page GET used for scraping: timeout
15000 ms. -/
def pageGetRequest : HttpRequest := ⟨some 15000, true⟩

/-- src/server.js:359-364 - the HEAD probe of an M3U8 URL scraped from the
page: timeout 5000 ms. -/
def scrapedHeadRequest : HttpRequest := ⟨some 5000, true⟩

/-- Options of one spawned subprocess: the wall-clock timeout armed around
it and the signal sent when that timeout fires. -/
structure SubprocessCall where
  timeoutMs : Option Nat
  killSignalOnTimeout : Option String
deriving DecidableEq

/-- The signal used to terminate a timed-out conversion
(src/server.js:161). -/
def sigkill : String := "SIGKILL"

/-- src/server.js:158-163 - the conversion subprocess: a 5 * 60 * 1000 ms
timer that kills the process with SIGKILL. -/
def ffmpegConvertCall : SubprocessCall := ⟨some (5 * 60 * 1000), some sigkill⟩

/-- src/server.js:214-264 - the diagnostic ffprobe subprocess inside
diagnoseTsFile: spawned with no timer at all. -/
def ffprobeDiagnoseCall : SubprocessCall := ⟨none, none⟩

/-! ### Orchestrator failure path (src/server.js:611-643) -/

/-- src/server.js:628 - the note field of the failure payload. -/
def failureNote : String := "HLS download or MP4 conversion failed"

/-- src/server.js:629-636 - the enumerated possible causes of the failure
payload. -/
def failureCauses : List String :=
  [ "Invalid or expired Twitch video URL"
  , "Video is private, deleted, or subscriber-only"
  , "Network connectivity issues"
  , "Twitch anti-bot protection"
  , "FFmpeg conversion error"
  , "Insufficient disk space" ]

/-- src/server.js:637-641 - the remediation suggestions of the failure
payload. -/
def failureSuggestions : List String :=
  [ "Verify the Twitch video URL is public and accessible"
  , "Try a different video or check if it requires login"
  , "Ensure the video ID is correct in the URL" ]

/-- The structured error payload returned by the failure branch
(src/server.js:626-642). -/
structure ErrorResponse where
  status : Nat
  errorMessage : String
  note : String
  possible_causes : List String
  suggestions : List String
deriving DecidableEq

/-- src/server.js:626-642 - build the 500 payload for a failure message. -/
def buildFailureResponse (msg : String) : ErrorResponse :=
  ⟨500, msg, failureNote, failureCauses, failureSuggestions⟩

/-- src/server.js:615-624 - one step of the cleanup loop: when the path
exists in the filesystem (modelled as the list of existing paths), unlink
it. -/
def unlinkIfExists (fsPaths : List (List Char)) (p : List Char) : List (List Char) :=
  if p ∈ fsPaths then fsPaths.filter (fun q => decide (q ≠ p)) else fsPaths

/-- src/server.js:611-643 - the catch branch of the download-vod handler:
clean up the ts path then the mp4 path (the forEach order of line 615),
then return the structured 500 payload. The result pairs the filesystem
after cleanup with the response. -/
def handleDownloadFailure (fsPaths : List (List Char)) (tsPath mp4Path : List Char)
    (msg : String) : List (List Char) × ErrorResponse :=
  (unlinkIfExists (unlinkIfExists fsPaths tsPath) mp4Path, buildFailureResponse msg)

/-! ### Source-URL gate of the orchestrator (src/server.js:517-523) -/

/-- The Twitch host marker tested by the gate (src/server.js:519). -/
def twitchMarker : List Char := "twitch.tv".data

/-- The playlist-file marker tested by the gate (src/server.js:519). -/
def m3u8Marker : List Char := ".m3u8".data

/-- src/server.js:518-523 - the playlist URL handed to downloadHLS: the
Twitch extractor runs exactly when the source URL contains twitch.tv and
does not contain .m3u8; otherwise the source URL is used unchanged. -/
def resolveSourceUrl (extractTwitch : List Char → List Char) (vodUrl : List Char) : List Char :=
  if containsSeq twitchMarker vodUrl && !(containsSeq m3u8Marker vodUrl) then
    extractTwitch vodUrl
  else
    vodUrl

/-! ### Artifact retrieval route (src/server.js:647-654) -/

/-- The downloads directory segment (src/server.js:13). -/
def downloadsSeg : List Char := "downloads".data

/-- The single-dot path segment. -/
def dotSeg : List Char := ".".data

/-- The double-dot path segment. -/
def dotDotSeg : List Char := "..".data

/-- Node path.join normalization over segments: double dots pop the last
accumulated segment, single dots and empty segments vanish, everything
else is appended. -/
def normSegs (acc : List (List Char)) : List (List Char) → List (List Char)
  | [] => acc
  | s :: rest =>
    if s = dotDotSeg then normSegs acc.dropLast rest
    else if s = dotSeg then normSegs acc rest
    else if s = [] then normSegs acc rest
    else normSegs (acc ++ [s]) rest

/-- src/server.js:648 - path.join(DOWNLOAD_DIR, fileName): split the file
name on slashes, append to the directory segments, normalize. -/
def joinPath (dir : List (List Char)) (fileName : List Char) : List (List Char) :=
  normSegs [] (dir ++ splitOnChar '/' fileName)

/-- src/server.js:647-654 - the GET vod route: look the joined path up in
the filesystem (a map from segment paths to file bytes); send the bytes
when the file exists, else a 404 error. No containment check is applied
to the joined path. -/
def serveVod (fsys : List (List Char) → Option (List Nat)) (dlDir : List (List Char))
    (fileName : List Char) : Except Nat (List Nat) :=
  match fsys (joinPath dlDir fileName) with
  | some b => Except.ok b
  | none => Except.error 404

/-! ### Concrete example inputs used to instantiate the theorems -/

/-- A playlist URL used in the concrete examples. -/
def urlMaster : List Char := "http://h/p.m3u8".data

/-- A master playlist whose only stream-info marker is followed by an
empty line (unusable variant), with a later plain line. -/
def textMasterNoVariant : List Char := "#EXT-X-STREAM-INF:X\n\nseg.ts".data

/-- The absolute form of the plain line of textMasterNoVariant. -/
def segAbs : List Char := "http://h/seg.ts".data

/-- A network error message used by the example playlist oracles. -/
def netErrMsg : String := "Request failed"

/-- Example playlist oracle serving textMasterNoVariant at urlMaster. -/
def fetchPlaylistEx (u : List Char) : Except String (List Char) :=
  if u = urlMaster then Except.ok textMasterNoVariant else Except.error netErrMsg

/-- Example segment oracle succeeding only on segAbs. -/
def fetchSegmentEx (u : List Char) : FetchOutcome :=
  if u = segAbs then FetchOutcome.completed [7, 7] else FetchOutcome.failed []

/-- A second playlist URL used in the concrete examples. -/
def urlMaster2 : List Char := "http://h/q.m3u8".data

/-- A master playlist with an unusable variant line and no segment lines
at all. -/
def textMasterEmpty : List Char := "#EXT-X-STREAM-INF:X\n#c".data

/-- Example playlist oracle serving textMasterEmpty at urlMaster2. -/
def fetchPlaylistEx2 (u : List Char) : Except String (List Char) :=
  if u = urlMaster2 then Except.ok textMasterEmpty else Except.error netErrMsg

/-- Example segment oracle on which every fetch fails before any data. -/
def fetchSegmentNone (_ : List Char) : FetchOutcome := FetchOutcome.failed []

/-- Example segment URL that succeeds under fetchSegmentPartial. -/
def segU1 : List Char := "u1".data

/-- Example segment URL that fails under fetchSegmentPartial. -/
def segU2 : List Char := "u2".data

/-- Example segment oracle completing on segU1 only; all other fetches
fail before any data. -/
def fetchSegmentPartial (u : List Char) : FetchOutcome :=
  if u = segU1 then FetchOutcome.completed [1, 2] else FetchOutcome.failed []

/-- Example segment oracle on which segU2's stream dies mid-body after
piping one byte, while segU1 completes. -/
def fetchSegmentMidFail (u : List Char) : FetchOutcome :=
  if u = segU1 then FetchOutcome.completed [1, 2]
  else if u = segU2 then FetchOutcome.failed [9]
  else FetchOutcome.failed []

/-- A media playlist URL used by the parser example. -/
def urlMedia : List Char := "http://h/a/p.m3u8".data

/-- A media playlist with a tag line, a relative segment, a blank line and
an absolute segment. -/
def textMedia : List Char := "#EXTM3U\nseg1.ts\n\nhttp://cdn/x.ts".data

/-- A spawn-error message used by the converter examples. -/
def msgEnoent : String := "spawn ENOENT"

/-- The empty string, used by the converter examples. -/
def strEmpty : String := ""

/-- A Twitch page URL used by the gate example. -/
def twitchPageUrl : List Char := "https://www.twitch.tv/videos/123".data

/-- The part of twitchPageUrl before the twitch.tv marker. -/
def twitchPre : List Char := "https://www.".data

/-- The part of twitchPageUrl after the twitch.tv marker. -/
def twitchSuf : List Char := "/videos/123".data

/-- The value returned by the example Twitch extractor. -/
def resolvedUrlEx : List Char := "http://usher/vod/123.m3u8".data

/-- A non-Twitch page URL used by the gate example. -/
def plainPageUrl : List Char := "http://example.com/page".data

/-- The server root segment of the retrieval example. -/
def srvSeg : List Char := "srv".data

/-- The escaping target segment of the retrieval example. -/
def secretSeg : List Char := "secret".data

/-- The traversal file-name parameter of the retrieval example. -/
def traversalName : List Char := "../secret".data

/-- Example filesystem holding a file outside the downloads directory. -/
def fsysEx (p : List (List Char)) : Option (List Nat) :=
  if p = [srvSeg, secretSeg] then some [9] else none

/-- Example ts path of the cleanup example. -/
def tsPathEx : List Char := "v.ts".data

/-- Example mp4 path of the cleanup example. -/
def mp4PathEx : List Char := "v.mp4".data

/-- Example unrelated path of the cleanup example. -/
def otherPathEx : List Char := "other.txt".data

/-- Example filesystem state of the cleanup example. -/
def fsPathsEx : List (List Char) := [tsPathEx, mp4PathEx, otherPathEx]

/-- Resolved form of the relative segment line of textMedia. -/
def resolvedSeg1 : List Char := "http://h/a/seg1.ts".data

/-- The absolute segment line of textMedia, kept unchanged. -/
def resolvedSeg2 : List Char := "http://cdn/x.ts".data

/-! ### Helper lemmas -/

/-- containsSeq decides contiguous-subsequence occurrence: it is true
exactly when the string splits around the pattern. -/
theorem containsSeq_spec (pat : List Char) (l : List Char) :
    containsSeq pat l = true ↔ ∃ a b, a ++ pat ++ b = l := by
  induction l with
  | nil =>
    constructor
    · intro h
      have hp : pat = [] := by simpa [containsSeq, List.isEmpty_iff] using h
      exact ⟨[], [], by simp [hp]⟩
    · rintro ⟨a, b, h⟩
      have h1 := List.append_eq_nil.mp h
      have h2 := List.append_eq_nil.mp h1.1
      simp [containsSeq, List.isEmpty_iff, h2.2]
  | cons c rest ih =>
    constructor
    · intro h
      rw [containsSeq] at h
      rcases Bool.or_eq_true_iff.mp h with hpre | hrest
      · rcases List.isPrefixOf_iff_prefix.mp hpre with ⟨t, ht⟩
        exact ⟨[], t, by simpa using ht⟩
      · rcases ih.mp hrest with ⟨a, b, hab⟩
        refine ⟨c :: a, b, ?_⟩
        rw [List.cons_append, List.cons_append, hab]
    · rintro ⟨a, b, hab⟩
      rw [containsSeq]
      apply Bool.or_eq_true_iff.mpr
      cases a with
      | nil =>
        left
        exact List.isPrefixOf_iff_prefix.mpr ⟨b, by simpa using hab⟩
      | cons a0 as =>
        right
        have hab' : a0 :: (as ++ (pat ++ b)) = c :: rest := by
          simpa [List.append_assoc] using hab
        have h2 : as ++ pat ++ b = rest := by
          have := (List.cons.injEq a0 (as ++ (pat ++ b)) c rest).mp hab'
          simpa [List.append_assoc] using this.2
        exact ih.mpr ⟨as, b, h2⟩

/-- Closed form of the segment-download fold from any starting
accumulator: the counter accumulates the completed fetches, the sink
accumulates every delivered byte in segment order. -/
theorem downloadSegments_go (f : List Char → FetchOutcome) (segs : List (List Char))
    (c0 : Nat) (b0 : List Nat) :
    segs.foldl
      (fun acc u =>
        match f u with
        | FetchOutcome.completed bytes => (acc.1 + 1, acc.2 ++ bytes)
        | FetchOutcome.failed delivered => (acc.1, acc.2 ++ delivered))
      (c0, b0)
    = (c0 + (segs.filterMap (fun u => completedBody (f u))).length,
       b0 ++ (segs.map (fun u => deliveredBytes (f u))).flatten) := by
  induction segs generalizing c0 b0 with
  | nil => simp
  | cons u rest ih =>
    rw [List.foldl_cons]
    cases hu : f u with
    | failed delivered =>
      simp only [hu]
      rw [ih]
      simp [List.filterMap_cons, hu, completedBody, deliveredBytes, List.append_assoc]
    | completed bytes =>
      simp only [hu]
      rw [ih]
      simp [List.filterMap_cons, hu, completedBody, deliveredBytes, List.append_assoc]
      omega

/-- The segment loop computes the completed-fetch count and the in-order
concatenation of all delivered bytes. -/
theorem downloadSegments_eq (f : List Char → FetchOutcome) (segs : List (List Char)) :
    downloadSegments f segs
      = ((segs.filterMap (fun u => completedBody (f u))).length,
         (segs.map (fun u => deliveredBytes (f u))).flatten) := by
  rw [downloadSegments, downloadSegments_go]
  simp

/-- When no failed fetch delivered any bytes, the delivered concatenation
collapses to the concatenation of the completed bodies alone. -/
theorem delivered_eq_completed_of_no_partial (f : List Char → FetchOutcome)
    (segs : List (List Char))
    (h : ∀ u ∈ segs, isCompleted (f u) = true ∨ deliveredBytes (f u) = []) :
    (segs.map (fun u => deliveredBytes (f u))).flatten
      = (segs.filterMap (fun u => completedBody (f u))).flatten := by
  induction segs with
  | nil => simp
  | cons u rest ih =>
    have hrest := ih (fun v hv => h v (List.mem_cons_of_mem u hv))
    cases hu : f u with
    | completed bytes =>
      have hcb : completedBody (f u) = some bytes := (congrArg completedBody hu).trans rfl
      have hdel : deliveredBytes (f u) = bytes := (congrArg deliveredBytes hu).trans rfl
      rw [List.map_cons, hdel,
        @List.filterMap_cons_some _ _ (fun v => completedBody (f v)) u rest bytes hcb,
        List.flatten_cons, List.flatten_cons, hrest]
    | failed delivered =>
      have hd : delivered = [] := by
        rcases h u (List.mem_cons_self u rest) with hc | hdel
        · rw [hu] at hc
          exact absurd hc (by simp [isCompleted])
        · rw [hu] at hdel
          exact hdel
      have hcb : completedBody (f u) = none := (congrArg completedBody hu).trans rfl
      have hdel : deliveredBytes (f u) = [] :=
        ((congrArg deliveredBytes hu).trans rfl).trans hd
      rw [List.map_cons, hdel,
        @List.filterMap_cons_none _ _ (fun v => completedBody (f v)) u rest hcb,
        List.flatten_cons, List.nil_append, hrest]

/-- Closed form of the media-extraction fold from any starting
accumulator. -/
theorem extractSegments_go (b : List Char) (lines : List (List Char)) (acc : List (List Char)) :
    lines.foldl
      (fun segs line => if isSegmentLine line then segs ++ [resolveUrl b line] else segs)
      acc
    = acc ++ (lines.filter isSegmentLine).map (resolveUrl b) := by
  induction lines generalizing acc with
  | nil => simp
  | cons l rest ih =>
    rw [List.foldl_cons]
    by_cases hl : isSegmentLine l = true
    · simp [hl, ih, List.filter_cons, List.append_assoc]
    · simp [hl, ih, List.filter_cons]

/-- The media branch extracts exactly the resolved passing lines in
order. -/
theorem extractSegments_eq (b : List Char) (lines : List (List Char)) :
    extractSegments b lines = (lines.filter isSegmentLine).map (resolveUrl b) := by
  rw [extractSegments, extractSegments_go]
  simp

/-- For a run whose process started and exited, runFFmpeg resolves exactly
when the exit code is zero and the output file exists with non-zero
size. -/
theorem runFFmpeg_normal_ok_iff (c : Int) (st : String) (e : Bool) (z : Nat) :
    runFFmpeg (normalRun c st e z) = Except.ok () ↔ (c = 0 ∧ e = true ∧ z ≠ 0) := by
  cases e <;> by_cases hc : c = 0 <;> by_cases hz : z = 0 <;>
    simp [runFFmpeg, normalRun, hc, hz]

/-- A run that does not satisfy the success conditions rejects with some
message. -/
theorem runFFmpeg_normal_error (c : Int) (st : String) (e : Bool) (z : Nat)
    (h : ¬(c = 0 ∧ e = true ∧ z ≠ 0)) :
    ∃ m, runFFmpeg (normalRun c st e z) = Except.error m := by
  cases hres : runFFmpeg (normalRun c st e z) with
  | error m => exact ⟨m, rfl⟩
  | ok u =>
    cases u
    exact absurd ((runFFmpeg_normal_ok_iff c st e z).mp hres) h

/-- Normalization walks over segments that are neither empty nor dots by
plain accumulation. -/
theorem normSegs_clean_append (xs ys acc : List (List Char))
    (hxs : ∀ s ∈ xs, s ≠ [] ∧ s ≠ dotSeg ∧ s ≠ dotDotSeg) :
    normSegs acc (xs ++ ys) = normSegs (acc ++ xs) ys := by
  induction xs generalizing acc with
  | nil => simp
  | cons s rest ih =>
    have hs := hxs s (by simp)
    rw [List.cons_append]
    simp only [normSegs]
    rw [if_neg hs.2.2, if_neg hs.2.1, if_neg hs.1]
    rw [ih (acc ++ [s]) (fun t ht => hxs t (by simp [ht]))]
    simp [List.append_assoc]

/-- Unfolding lemma: a double-dot segment pops the accumulator. -/
theorem normSegs_cons_dotdot (acc : List (List Char)) (rest : List (List Char)) :
    normSegs acc (dotDotSeg :: rest) = normSegs acc.dropLast rest := by
  simp [normSegs]

/-- Unfolding lemma: a clean segment is appended to the accumulator. -/
theorem normSegs_cons_clean (acc : List (List Char)) (s : List Char)
    (rest : List (List Char)) (h1 : s ≠ []) (h2 : s ≠ dotSeg) (h3 : s ≠ dotDotSeg) :
    normSegs acc (s :: rest) = normSegs (acc ++ [s]) rest := by
  simp [normSegs, h1, h2, h3]

/-- Unfolding lemma: normalization of an empty segment list. -/
theorem normSegs_nil (acc : List (List Char)) : normSegs acc [] = acc := rfl

/-- A path never survives its own unlink step. -/
theorem not_mem_unlinkIfExists_self (fsPaths : List (List Char)) (p : List Char) :
    p ∉ unlinkIfExists fsPaths p := by
  unfold unlinkIfExists
  by_cases hp : p ∈ fsPaths
  · simp [hp, List.mem_filter]
  · simp [hp]

/-- Unlinking never adds paths. -/
theorem not_mem_unlinkIfExists_of (fsPaths : List (List Char)) (p q : List Char)
    (h : p ∉ fsPaths) : p ∉ unlinkIfExists fsPaths q := by
  unfold unlinkIfExists
  by_cases hq : q ∈ fsPaths
  · simp only [hq, if_pos]
    intro hmem
    exact h (List.mem_filter.mp hmem).1
  · simp [hq]
    exact h

/-! ### Claim theorems -/

/-- C1 counterexample: a segment whose stream dies mid-body after piping
one byte leaves that byte in the output file, between its neighbours'
bytes - the output is not the concatenation of the succeeded segments'
bodies alone, contradicting the claimed zero-byte contribution of failed
segments. -/
theorem downloader_midstream_partial_prefix :
    (downloadSegments fetchSegmentMidFail [segU1, segU2, segU1]).1 = 2
    ∧ (downloadSegments fetchSegmentMidFail [segU1, segU2, segU1]).2 = [1, 2, 9, 1, 2]
    ∧ (downloadSegments fetchSegmentMidFail [segU1, segU2, segU1]).2
        ≠ ([segU1, segU2, segU1].filterMap
            (fun u => completedBody (fetchSegmentMidFail u))).flatten := by
  refine ⟨by decide, by decide, by decide⟩

/-- C1 amended: the output file holds, in playlist order without
duplication or reordering, exactly the bytes each segment delivered
before its stream ended or failed: the full body of every completed
segment, the already-piped prefix of a segment whose stream failed
mid-body, and nothing for a segment whose request failed before any
data; the success count counts only completed segments, and when no
failed segment delivered any bytes the output is exactly the in-order
concatenation of the completed segments' bodies. -/
theorem downloader_output_is_delivered_concat
    (fetchSegment : List Char → FetchOutcome) (segs : List (List Char)) :
    (downloadSegments fetchSegment segs).2
      = (segs.map (fun u => deliveredBytes (fetchSegment u))).flatten
    ∧ (downloadSegments fetchSegment segs).1
      = (segs.filterMap (fun u => completedBody (fetchSegment u))).length
    ∧ ((∀ u ∈ segs, isCompleted (fetchSegment u) = true
          ∨ deliveredBytes (fetchSegment u) = []) →
        (downloadSegments fetchSegment segs).2
          = (segs.filterMap (fun u => completedBody (fetchSegment u))).flatten) := by
  refine ⟨?_, ?_, ?_⟩
  · rw [downloadSegments_eq]
  · rw [downloadSegments_eq]
  · intro h
    rw [downloadSegments_eq]
    exact delivered_eq_completed_of_no_partial fetchSegment segs h

/-- C1 amended instance: with no mid-stream failures, a failed middle
segment contributes nothing and the completed segments concatenate in
order. -/
theorem downloader_no_partial_example :
    (downloadSegments fetchSegmentPartial [segU1, segU2, segU1]).2
      = ([segU1, segU2, segU1].filterMap
          (fun u => completedBody (fetchSegmentPartial u))).flatten :=
  (downloader_output_is_delivered_concat fetchSegmentPartial [segU1, segU2, segU1]).2.2
    (by decide)

/-- C3: for a segment list of length at least one, the post-loop check
fails with the no-segments-succeeded error exactly when zero fetches
succeeded, and succeeds with the success count whenever at least one
fetch succeeded. -/
theorem downloader_fails_iff_no_segment_succeeds
    (fetchSegment : List Char → FetchOutcome) (segs : List (List Char))
    (hN : 1 ≤ segs.length) :
    (downloadSegmentsChecked fetchSegment segs = Except.error errNoSegmentsDownloaded
      ↔ (segs.filterMap (fun u => completedBody (fetchSegment u))).length = 0)
    ∧ (1 ≤ (segs.filterMap (fun u => completedBody (fetchSegment u))).length →
        downloadSegmentsChecked fetchSegment segs
          = Except.ok
              ((segs.filterMap (fun u => completedBody (fetchSegment u))).length,
               (segs.map (fun u => deliveredBytes (fetchSegment u))).flatten)) := by
  unfold downloadSegmentsChecked
  rw [downloadSegments_eq]
  by_cases hk : (segs.filterMap (fun u => completedBody (fetchSegment u))).length = 0
  · constructor
    · simp [hk]
    · intro h1
      omega
  · constructor
    · simp [hk]
    · intro h1
      simp [hk]

/-- C3 instance: one of two segments succeeds, so the check returns count
one. -/
theorem downloader_partial_success_example :
    downloadSegmentsChecked fetchSegmentPartial [segU1, segU2] = Except.ok (1, [1, 2]) := by
  have h := (downloader_fails_iff_no_segment_succeeds fetchSegmentPartial [segU1, segU2]
    (by decide)).2 (by decide)
  exact h.trans (by decide)

/-- C7: on playlist text none of whose lines contains the stream-info
marker, one parsing pass yields the media outcome holding one resolved
URL per passing line (non-empty, not hash-prefixed, non-blank), in order
with duplicates kept; the base URL used for resolution is the playlist
URL truncated just after its last slash. -/
theorem media_parser_extracts_all_segment_lines (url text : List Char)
    (hmedia : ∀ l ∈ splitOnChar '\n' text, containsSeq streamInfMarker l = false) :
    parsePlaylistStep url text
      = ParseOutcome.media
          (((splitOnChar '\n' text).filter isSegmentLine).map (resolveUrl (baseUrlOf url)))
    ∧ (((splitOnChar '\n' text).filter isSegmentLine).map
          (resolveUrl (baseUrlOf url))).length
        = ((splitOnChar '\n' text).filter isSegmentLine).length
    ∧ baseUrlOf url ++ afterLastSlash url = url
    ∧ ∀ c ∈ afterLastSlash url, c ≠ '/' := by
  refine ⟨?_, by simp, ?_, ?_⟩
  · have hmaster : isMasterPlaylist (splitOnChar '\n' text) = false := by
      rw [isMasterPlaylist, List.any_eq_false]
      intro x hx
      simp [hmedia x hx]
    simp [parsePlaylistStep, hmaster, extractSegments_eq]
  · calc baseUrlOf url ++ afterLastSlash url
        = (url.reverse.takeWhile notSlash ++ url.reverse.dropWhile notSlash).reverse := by
          rw [baseUrlOf, afterLastSlash, List.reverse_append]
      _ = url := by rw [List.takeWhile_append_dropWhile, List.reverse_reverse]
  · intro c hc
    rw [afterLastSlash, List.mem_reverse] at hc
    have hcw := List.mem_takeWhile_imp hc
    simpa [notSlash] using hcw

/-- C7 instance: a tag line and a blank line are skipped; a relative and
an absolute segment line resolve in order. -/
theorem media_parser_example :
    parsePlaylistStep urlMedia textMedia
      = ParseOutcome.media [resolvedSeg1, resolvedSeg2] := by
  have h := (media_parser_extracts_all_segment_lines urlMedia textMedia (by decide)).1
  exact h.trans (by decide)

/-- C2 counterexample: textMasterNoVariant is a master playlist (a line
contains the stream-info marker) in which no usable variant line follows
any marker (the variant scan yields none), yet downloadHLS does not fail
at all: it falls through to media extraction, treats the later plain line
as a segment, and succeeds - contradicting the claimed
ParseError(no variant) failure. -/
theorem master_without_variant_not_no_variant_error :
    isMasterPlaylist (splitOnChar '\n' textMasterNoVariant) = true
    ∧ findVariant (splitOnChar '\n' textMasterNoVariant) = none
    ∧ downloadHLS fetchPlaylistEx fetchSegmentEx 2 urlMaster = Except.ok (1, [7, 7]) := by
  refine ⟨by decide, by decide, by decide⟩

/-- C2 amended: on a master playlist in which no usable variant line
follows any marker, the parser does not raise a dedicated no-variant
error; it falls through to media extraction, and only when that
extraction is empty does the download fail, with the
no-segments-found-in-playlist error. -/
theorem master_without_variant_falls_through_to_media
    (url text : List Char)
    (fetchPlaylist : List Char → Except String (List Char))
    (fetchSegment : List Char → FetchOutcome) (fuel : Nat)
    (hm : isMasterPlaylist (splitOnChar '\n' text) = true)
    (hv : findVariant (splitOnChar '\n' text) = none)
    (hfetch : fetchPlaylist url = Except.ok text) :
    parsePlaylistStep url text
      = ParseOutcome.media (extractSegments (baseUrlOf url) (splitOnChar '\n' text))
    ∧ (extractSegments (baseUrlOf url) (splitOnChar '\n' text) = [] →
        downloadHLS fetchPlaylist fetchSegment (fuel + 1) url
          = Except.error (wrapHLSError errNoSegmentsFound)) := by
  have hparse : parsePlaylistStep url text
      = ParseOutcome.media (extractSegments (baseUrlOf url) (splitOnChar '\n' text)) := by
    simp [parsePlaylistStep, hm, hv]
  refine ⟨hparse, ?_⟩
  intro hempty
  simp [downloadHLS, hfetch, hparse, hempty]

/-- C2 amended instance: a master playlist with an unusable variant line
and no segment lines fails with the no-segments-found error, not a
no-variant error. -/
theorem master_without_variant_falls_through_example :
    downloadHLS fetchPlaylistEx2 fetchSegmentNone 1 urlMaster2
      = Except.error (wrapHLSError errNoSegmentsFound) := by
  have h := (master_without_variant_falls_through_to_media urlMaster2 textMasterEmpty
    fetchPlaylistEx2 fetchSegmentNone 0 (by decide) (by decide) (by decide)).2 (by decide)
  exact h

/-- C4: for converter runs whose processes start and exit, the strategies
are tried in the fixed order copy, re-encode, basic; a strategy fails
exactly on non-zero exit, missing output or zero-byte output; the
converter stops at the first succeeding strategy and reports it; when all
three fail, it fails with the all-strategies-failed message embedding the
last (basic) strategy's rejection detail. -/
theorem converter_fixed_order_first_success
    (code : Strategy → Int) (st : Strategy → String)
    (outEx : Strategy → Bool) (outSz : Strategy → Nat) :
    ((code Strategy.copy = 0 ∧ outEx Strategy.copy = true ∧ outSz Strategy.copy ≠ 0) →
      convertTsToMp4 (fun s => normalRun (code s) (st s) (outEx s) (outSz s))
        = Except.ok Strategy.copy)
    ∧ (¬(code Strategy.copy = 0 ∧ outEx Strategy.copy = true ∧ outSz Strategy.copy ≠ 0) →
       (code Strategy.reencode = 0 ∧ outEx Strategy.reencode = true
          ∧ outSz Strategy.reencode ≠ 0) →
      convertTsToMp4 (fun s => normalRun (code s) (st s) (outEx s) (outSz s))
        = Except.ok Strategy.reencode)
    ∧ (¬(code Strategy.copy = 0 ∧ outEx Strategy.copy = true ∧ outSz Strategy.copy ≠ 0) →
       ¬(code Strategy.reencode = 0 ∧ outEx Strategy.reencode = true
          ∧ outSz Strategy.reencode ≠ 0) →
       (code Strategy.basic = 0 ∧ outEx Strategy.basic = true ∧ outSz Strategy.basic ≠ 0) →
      convertTsToMp4 (fun s => normalRun (code s) (st s) (outEx s) (outSz s))
        = Except.ok Strategy.basic)
    ∧ (¬(code Strategy.copy = 0 ∧ outEx Strategy.copy = true ∧ outSz Strategy.copy ≠ 0) →
       ¬(code Strategy.reencode = 0 ∧ outEx Strategy.reencode = true
          ∧ outSz Strategy.reencode ≠ 0) →
       ¬(code Strategy.basic = 0 ∧ outEx Strategy.basic = true ∧ outSz Strategy.basic ≠ 0) →
      ∃ m, runFFmpeg (normalRun (code Strategy.basic) (st Strategy.basic)
              (outEx Strategy.basic) (outSz Strategy.basic)) = Except.error m
        ∧ convertTsToMp4 (fun s => normalRun (code s) (st s) (outEx s) (outSz s))
            = Except.error (msgAllFailedPre ++ m)) := by
  refine ⟨?_, ?_, ?_, ?_⟩
  · intro h1
    have e1 := (runFFmpeg_normal_ok_iff (code Strategy.copy) (st Strategy.copy)
      (outEx Strategy.copy) (outSz Strategy.copy)).mpr h1
    simp [convertTsToMp4, e1]
  · intro h1 h2
    obtain ⟨m1, e1⟩ := runFFmpeg_normal_error (code Strategy.copy) (st Strategy.copy)
      (outEx Strategy.copy) (outSz Strategy.copy) h1
    have e2 := (runFFmpeg_normal_ok_iff (code Strategy.reencode) (st Strategy.reencode)
      (outEx Strategy.reencode) (outSz Strategy.reencode)).mpr h2
    simp [convertTsToMp4, e1, e2]
  · intro h1 h2 h3
    obtain ⟨m1, e1⟩ := runFFmpeg_normal_error (code Strategy.copy) (st Strategy.copy)
      (outEx Strategy.copy) (outSz Strategy.copy) h1
    obtain ⟨m2, e2⟩ := runFFmpeg_normal_error (code Strategy.reencode) (st Strategy.reencode)
      (outEx Strategy.reencode) (outSz Strategy.reencode) h2
    have e3 := (runFFmpeg_normal_ok_iff (code Strategy.basic) (st Strategy.basic)
      (outEx Strategy.basic) (outSz Strategy.basic)).mpr h3
    simp [convertTsToMp4, e1, e2, e3]
  · intro h1 h2 h3
    obtain ⟨m1, e1⟩ := runFFmpeg_normal_error (code Strategy.copy) (st Strategy.copy)
      (outEx Strategy.copy) (outSz Strategy.copy) h1
    obtain ⟨m2, e2⟩ := runFFmpeg_normal_error (code Strategy.reencode) (st Strategy.reencode)
      (outEx Strategy.reencode) (outSz Strategy.reencode) h2
    obtain ⟨m3, e3⟩ := runFFmpeg_normal_error (code Strategy.basic) (st Strategy.basic)
      (outEx Strategy.basic) (outSz Strategy.basic) h3
    exact ⟨m3, e3, by simp [convertTsToMp4, e1, e2, e3]⟩

/-- C4 instance: three failing runs surface the all-strategies-failed
message with the basic strategy's detail. -/
theorem converter_all_fail_example :
    ∃ m, runFFmpeg (normalRun 1 strEmpty false 0) = Except.error m
      ∧ convertTsToMp4 (fun _ => normalRun 1 strEmpty false 0)
          = Except.error (msgAllFailedPre ++ m) := by
  have h := (converter_fixed_order_first_success (fun _ => 1) (fun _ => strEmpty)
      (fun _ => false) (fun _ => 0)).2.2.2 (by decide) (by decide) (by decide)
  simpa using h

/-- C5 counterexample: a spawn error on the copy strategy does advance the
converter to the re-encode strategy, which then succeeds - contradicting
the claim that a spawn error is a distinct fatal condition that does not
merely advance the fallback chain. -/
theorem spawn_error_does_advance_strategies :
    convertTsToMp4
      (fun s =>
        match s with
        | Strategy.copy => spawnFailRun msgEnoent
        | Strategy.reencode => normalRun 0 strEmpty true 5
        | Strategy.basic => normalRun 0 strEmpty true 5)
      = Except.ok Strategy.reencode := rfl

/-- C5 amended: a failure to start the tool is rejected with its own
message (the failed-to-start prefix) but is handled exactly like any
strategy failure: the converter's result is identical whether the copy
strategy's process failed to spawn or ran and failed, for every behaviour
of the remaining strategies. -/
theorem spawn_error_equiv_strategy_failure (m : String) (r2 r3 : FFmpegRun) :
    convertTsToMp4
      (fun s =>
        match s with
        | Strategy.copy => spawnFailRun m
        | Strategy.reencode => r2
        | Strategy.basic => r3)
    = convertTsToMp4
      (fun s =>
        match s with
        | Strategy.copy => normalRun 1 strEmpty false 0
        | Strategy.reencode => r2
        | Strategy.basic => r3) := rfl

/-- C6 counterexample: the GET of the playlist text carries no timeout
option at all, and neither does the diagnostic ffprobe subprocess -
contradicting the claim that every network and subprocess call carries an
explicit bounded timeout. -/
theorem playlist_fetch_has_no_timeout :
    playlistGetRequest.timeoutMs = none ∧ ffprobeDiagnoseCall.timeoutMs = none :=
  ⟨rfl, rfl⟩

/-- C6 amended: every outbound call except the playlist-text GET and the
diagnostic ffprobe spawn carries an explicit timeout (30 s segment GET,
10 s endpoint probe, 15 s page GET, 5 s scraped-URL probe, 5 min
conversion subprocess, killed with SIGKILL on expiry); those two carry
none. -/
theorem pipeline_timeouts_inventory :
    segmentGetRequest.timeoutMs = some 30000
    ∧ usherHeadRequest.timeoutMs = some 10000
    ∧ pageGetRequest.timeoutMs = some 15000
    ∧ scrapedHeadRequest.timeoutMs = some 5000
    ∧ ffmpegConvertCall.timeoutMs = some 300000
    ∧ ffmpegConvertCall.killSignalOnTimeout = some sigkill
    ∧ playlistGetRequest.timeoutMs = none
    ∧ ffprobeDiagnoseCall.timeoutMs = none := by
  refine ⟨rfl, rfl, rfl, rfl, rfl, rfl, rfl, rfl⟩

/-- C8: the failure branch of the orchestrator removes both the ts path
and the mp4 path from the filesystem and pairs the cleaned filesystem
with the structured 500 payload carrying the error message, the six
enumerated possible causes and the three remediation suggestions. -/
theorem failure_cleanup_removes_partial_files (fsPaths : List (List Char))
    (tsPath mp4Path : List Char) (msg : String) :
    tsPath ∉ (handleDownloadFailure fsPaths tsPath mp4Path msg).1
    ∧ mp4Path ∉ (handleDownloadFailure fsPaths tsPath mp4Path msg).1
    ∧ (handleDownloadFailure fsPaths tsPath mp4Path msg).2.status = 500
    ∧ (handleDownloadFailure fsPaths tsPath mp4Path msg).2.errorMessage = msg
    ∧ (handleDownloadFailure fsPaths tsPath mp4Path msg).2.possible_causes = failureCauses
    ∧ (handleDownloadFailure fsPaths tsPath mp4Path msg).2.suggestions = failureSuggestions := by
  refine ⟨?_, ?_, rfl, rfl, rfl, rfl⟩
  · exact not_mem_unlinkIfExists_of (unlinkIfExists fsPaths tsPath) tsPath mp4Path
      (not_mem_unlinkIfExists_self fsPaths tsPath)
  · exact not_mem_unlinkIfExists_self (unlinkIfExists fsPaths tsPath) mp4Path

/-- C8 instance: both partial paths of the example filesystem are gone
after the failure branch runs. -/
theorem failure_cleanup_example :
    tsPathEx ∉ (handleDownloadFailure fsPathsEx tsPathEx mp4PathEx netErrMsg).1
    ∧ mp4PathEx ∉ (handleDownloadFailure fsPathsEx tsPathEx mp4PathEx netErrMsg).1 :=
  ⟨(failure_cleanup_removes_partial_files fsPathsEx tsPathEx mp4PathEx netErrMsg).1,
   (failure_cleanup_removes_partial_files fsPathsEx tsPathEx mp4PathEx netErrMsg).2.1⟩

/-- C9: the Twitch extractor runs exactly when the source URL contains
twitch.tv as a substring and does not contain .m3u8; every other source
URL is handed unchanged to the download stage. -/
theorem resolver_gate_twitch_only (extractTwitch : List Char → List Char)
    (vodUrl : List Char) :
    ((∃ a b, a ++ twitchMarker ++ b = vodUrl) → ¬(∃ a b, a ++ m3u8Marker ++ b = vodUrl) →
      resolveSourceUrl extractTwitch vodUrl = extractTwitch vodUrl)
    ∧ (¬(∃ a b, a ++ twitchMarker ++ b = vodUrl) →
      resolveSourceUrl extractTwitch vodUrl = vodUrl)
    ∧ ((∃ a b, a ++ m3u8Marker ++ b = vodUrl) →
      resolveSourceUrl extractTwitch vodUrl = vodUrl) := by
  refine ⟨?_, ?_, ?_⟩
  · intro ht hm
    have h1 : containsSeq twitchMarker vodUrl = true := (containsSeq_spec _ _).mpr ht
    have h2 : containsSeq m3u8Marker vodUrl = false := by
      cases hc : containsSeq m3u8Marker vodUrl
      · rfl
      · exact absurd ((containsSeq_spec _ _).mp hc) hm
    simp [resolveSourceUrl, h1, h2]
  · intro ht
    have h1 : containsSeq twitchMarker vodUrl = false := by
      cases hc : containsSeq twitchMarker vodUrl
      · rfl
      · exact absurd ((containsSeq_spec _ _).mp hc) ht
    simp [resolveSourceUrl, h1]
  · intro hm
    have h2 : containsSeq m3u8Marker vodUrl = true := (containsSeq_spec _ _).mpr hm
    simp [resolveSourceUrl, h2]

/-- C9 instance: a Twitch page URL without the playlist marker goes
through the extractor. -/
theorem resolver_gate_example :
    resolveSourceUrl (fun _ => resolvedUrlEx) twitchPageUrl = resolvedUrlEx := by
  have h := (resolver_gate_twitch_only (fun _ => resolvedUrlEx) twitchPageUrl).1
  apply h
  · exact ⟨twitchPre, twitchSuf, by decide⟩
  · intro hm
    have hc : containsSeq m3u8Marker twitchPageUrl = true := (containsSeq_spec _ _).mpr hm
    have hf : containsSeq m3u8Marker twitchPageUrl = false := by decide
    rw [hc] at hf
    exact Bool.noConfusion hf

/-- C10: the retrieval route serves the bytes of the file at
join(downloads directory, file name) when it exists and a 404 error
otherwise; no check constrains the joined path to lie inside the
directory - a double-dot file name resolves to a path outside it, and
that file is served all the same. -/
theorem vod_route_serves_joined_path_unchecked
    (fsys : List (List Char) → Option (List Nat)) (root : List (List Char))
    (hroot : ∀ s ∈ root, s ≠ [] ∧ s ≠ dotSeg ∧ s ≠ dotDotSeg) :
    (∀ fileName b, fsys (joinPath (root ++ [downloadsSeg]) fileName) = some b →
      serveVod fsys (root ++ [downloadsSeg]) fileName = Except.ok b)
    ∧ (∀ fileName, fsys (joinPath (root ++ [downloadsSeg]) fileName) = none →
      serveVod fsys (root ++ [downloadsSeg]) fileName = Except.error 404)
    ∧ joinPath (root ++ [downloadsSeg]) traversalName = root ++ [secretSeg]
    ∧ ∀ rest, root ++ [secretSeg] ≠ root ++ [downloadsSeg] ++ rest := by
  refine ⟨?_, ?_, ?_, ?_⟩
  · intro fn b h
    simp [serveVod, h]
  · intro fn h
    simp [serveVod, h]
  · have hsplit : splitOnChar '/' traversalName = [dotDotSeg, secretSeg] := by decide
    rw [joinPath, hsplit]
    have hclean : ∀ s ∈ root ++ [downloadsSeg], s ≠ [] ∧ s ≠ dotSeg ∧ s ≠ dotDotSeg := by
      intro s hs
      rcases List.mem_append.mp hs with h | h
      · exact hroot s h
      · simp only [List.mem_singleton] at h
        subst h
        exact ⟨by decide, by decide, by decide⟩
    rw [normSegs_clean_append (root ++ [downloadsSeg]) [dotDotSeg, secretSeg] [] hclean]
    simp only [List.nil_append]
    rw [normSegs_cons_dotdot, List.dropLast_concat]
    rw [normSegs_cons_clean root secretSeg [] (by decide) (by decide) (by decide)]
    exact normSegs_nil (root ++ [secretSeg])
  · intro rest h
    rw [List.append_assoc] at h
    have h2 := List.append_cancel_left h
    have h3 := ((List.cons.injEq secretSeg [] downloadsSeg rest).mp h2).1
    exact absurd h3 (by decide)

/-- C10 instance: the traversal file name ../secret is served from
outside the downloads directory. -/
theorem vod_route_traversal_example :
    serveVod fsysEx ([srvSeg] ++ [downloadsSeg]) traversalName = Except.ok [9] := by
  have h := (vod_route_serves_joined_path_unchecked fsysEx [srvSeg] (by decide)).1
  exact h traversalName [9] (by decide)

end HLS
